import Mathlib

/-!
Verification of the buildbot `build_data` database component
(`master/buildbot/db/build_data.py`) and the in-memory fake builds
component (`master/buildbot/test/fakedb/builds.py`).

The database is embedded shallowly: a table is a list of rows, an SQL
statement is a function on that list, and the `thd` closures handed to the
connection pool become Lean functions from a database state to a database
state paired with the statement results.
-/

namespace BuildData

/-- A row of the `build_data` table, restricted to the columns this
component reads and writes: `buildid`, `name`, `value`, `length`,
`source`.  The `value` column holds bytes, modelled as a list of `Nat`. -/
structure BuildDataRow where
  buildid : Int
  name : String
  value : List Nat
  length : Nat
  source : String
deriving DecidableEq

/-- A row of the `builds` table, restricted to the columns
`deleteOldBuildData` touches: `id` and `complete_at` (nullable). -/
structure BuildRow where
  id : Int
  complete_at : Option Int
deriving DecidableEq

/-- The database state seen by `BuildDataConnectorComponent`: the
`build_data` table and the `builds` table. -/
structure DBState where
  build_data : List BuildDataRow
  builds : List BuildRow
deriving DecidableEq

/-- The WHERE clause `(build_data.c.buildid == buildid) & (build_data.c.name == name)`
used by `setBuildData`, `getBuildData` and `getBuildDataNoValue`. -/
def keyMatch (buildid : Int) (name : String) (r : BuildDataRow) : Bool :=
  r.buildid == buildid && r.name == name

/-- The SQL predicate `(builds.c.complete_at >= older_than_timestamp) | (builds.c.complete_at == NULL)`
from `deleteOldBuildData`: true of a build that is incomplete or completed
at or after the timestamp.  A NULL `complete_at` fails the `>=` comparison
and satisfies the `IS NULL` disjunct. -/
def keepBuild (older_than_timestamp : Int) (b : BuildRow) : Bool :=
  match b.complete_at with
  | none => true
  | some c => older_than_timestamp ≤ c

/-- The sqlite branch of `deleteOldBuildData.thd`: delete the `build_data`
rows whose `buildid` is NOT IN the subquery selecting the ids of builds
satisfying `keepBuild`. -/
def deleteOldSqlite (st : DBState) (older_than_timestamp : Int) : DBState :=
  { st with
    build_data :=
      st.build_data.filter fun r =>
        st.builds.any fun b => b.id == r.buildid && keepBuild older_than_timestamp b }

/-- The non-sqlite branch of `deleteOldBuildData.thd`: a join-delete
removing the `build_data` rows having a matching `builds` row
(`builds.c.id == build_data.c.buildid`) that satisfies `keepBuild`. -/
def deleteOldJoin (st : DBState) (older_than_timestamp : Int) : DBState :=
  { st with
    build_data :=
      st.build_data.filter fun r =>
        !(st.builds.any fun b => b.id == r.buildid && keepBuild older_than_timestamp b) }

/-- `deleteOldBuildData.thd`: count the `build_data` rows, run the delete
of the branch selected by the engine's dialect name, count again, and
return the new state together with `count_before - count_after`. -/
def deleteOldBuildData (dialect : String) (st : DBState) (older_than_timestamp : Int) :
    DBState × Nat :=
  let count_before := st.build_data.length
  let st' :=
    if dialect == "sqlite" then deleteOldSqlite st older_than_timestamp
    else deleteOldJoin st older_than_timestamp
  (st', count_before - st'.build_data.length)

/-- The row written by the insert branch of `setBuildData`
(`insert_values`): `buildid`, `name`, `value`, `length = len(value)`,
`source`. -/
def insertRow (buildid : Int) (name : String) (value : List Nat) (source : String) :
    BuildDataRow :=
  { buildid := buildid, name := name, value := value, length := value.length, source := source }

/-- The effect of the UPDATE of `setBuildData` on a matching row
(`update_values`): set `value`, `length = len(value)` and `source`. -/
def applyUpdate (value : List Nat) (source : String) (r : BuildDataRow) : BuildDataRow :=
  { r with value := value, length := value.length, source := source }

/-- Executing the UPDATE statement of `setBuildData`: rewrite every row
matching the key and report the rowcount (the number of matched rows). -/
def execUpdate (st : DBState) (buildid : Int) (name : String) (value : List Nat)
    (source : String) : DBState × Nat :=
  ({ st with
     build_data :=
       st.build_data.map fun r =>
         if keyMatch buildid name r then applyUpdate value source r else r },
   st.build_data.countP (keyMatch buildid name))

/-- Executing the INSERT statement of `setBuildData` against the table's
uniqueness constraint on `(buildid, name)`: the insert raises
`IntegrityError` exactly when a row with the same key already exists,
and otherwise appends the new row. -/
def execInsert (st : DBState) (r : BuildDataRow) : Except Unit DBState :=
  if st.build_data.any (keyMatch r.buildid r.name) then Except.error ()
  else Except.ok { st with build_data := st.build_data ++ [r] }

/-- The `while True` loop of `setBuildData.thd`, with explicit fuel.
`hook` is `_insert_race_hook`, run between the failed UPDATE and the
INSERT; a no-op in production, it lets tests interleave a competing
writer.  Returns the final state (`none` when the fuel runs out before
the loop returns) together with the number of times the INSERT statement
was attempted. -/
def setBuildDataLoop (hook : DBState → DBState) (buildid : Int) (name : String)
    (value : List Nat) (source : String) : Nat → DBState → Option DBState × Nat
  | 0, _ => (none, 0)
  | fuel + 1, st =>
    let u := execUpdate st buildid name value source
    if u.2 > 0 then (some u.1, 0)
    else
      let st2 := hook u.1
      match execInsert st2 (insertRow buildid name value source) with
      | Except.ok st3 => (some st3, 1)
      | Except.error _ =>
        let rest := setBuildDataLoop hook buildid name value source fuel st2
        (rest.1, rest.2 + 1)

/-- `setBuildData.thd` as deployed: the loop with the production
`_insert_race_hook` (a no-op).  Fuel 2 covers every execution of the
loop, as proved below. -/
def setBuildData (buildid : Int) (name : String) (value : List Nat) (source : String)
    (st : DBState) : Option DBState :=
  (setBuildDataLoop (fun s => s) buildid name value source 2 st).1

/-- The result model of the accessors (`BuildDataModel`); `value` is
`none` for the no-value accessors. -/
structure BuildDataModel where
  buildid : Int
  name : String
  length : Nat
  source : String
  value : Option (List Nat)
deriving DecidableEq

/-- `_model_from_row` applied to a full row, with the given `value`. -/
def model_from_row (r : BuildDataRow) (value : Option (List Nat)) : BuildDataModel :=
  { buildid := r.buildid, name := r.name, length := r.length, source := r.source, value := value }

/-- `getBuildData.thd`: select the row matching `(buildid, name)`,
`fetchone`, and build a model carrying the row's `value`; `none` when no
row matches. -/
def getBuildData (st : DBState) (buildid : Int) (name : String) : Option BuildDataModel :=
  (st.build_data.find? (keyMatch buildid name)).map fun r => model_from_row r (some r.value)

/-- `getBuildDataNoValue.thd`: same WHERE clause, selecting only the
`buildid`, `name`, `length`, `source` columns; the model's `value` is
`none`. -/
def getBuildDataNoValue (st : DBState) (buildid : Int) (name : String) :
    Option BuildDataModel :=
  (st.build_data.find? (keyMatch buildid name)).map fun r => model_from_row r none

/-- `getAllBuildDataNoValues.thd`: one value-less model per `build_data`
row whose `buildid` matches. -/
def getAllBuildDataNoValues (st : DBState) (buildid : Int) : List BuildDataModel :=
  (st.build_data.filter fun r => r.buildid == buildid).map fun r => model_from_row r none

/-- `getBuildData.thd` as a state transformer: the body only executes a
SELECT, so the state handed back to the pool is the one it was given. -/
def getBuildData_thd (st : DBState) (buildid : Int) (name : String) :
    DBState × Option BuildDataModel :=
  (st, getBuildData st buildid name)

/-- `getBuildDataNoValue.thd` as a state transformer (SELECT only). -/
def getBuildDataNoValue_thd (st : DBState) (buildid : Int) (name : String) :
    DBState × Option BuildDataModel :=
  (st, getBuildDataNoValue st buildid name)

/-- `getAllBuildDataNoValues.thd` as a state transformer (SELECT only). -/
def getAllBuildDataNoValues_thd (st : DBState) (buildid : Int) :
    DBState × List BuildDataModel :=
  (st, getAllBuildDataNoValues st buildid)

/-- The table's uniqueness constraint on `(buildid, name)`: no two
`build_data` rows share a key.  Every reachable database state satisfies
it. -/
def uniqueKeysB : List BuildDataRow → Bool
  | [] => true
  | r :: t => (t.all fun s => !(s.buildid == r.buildid && s.name == r.name)) && uniqueKeysB t

def uniqueKeys (st : DBState) : Prop := uniqueKeysB st.build_data = true

instance uniqueKeys.instDecidable (st : DBState) : Decidable (uniqueKeys st) :=
  inferInstanceAs (Decidable (uniqueKeysB st.build_data = true))

/-- The table produced by the UPDATE statement of `setBuildData`. -/
def updatedState (st : DBState) (buildid : Int) (name : String) (value : List Nat)
    (source : String) : DBState :=
  { st with
    build_data :=
      st.build_data.map fun a =>
        if keyMatch buildid name a then applyUpdate value source a else a }

/-- The operations exposed by `BuildDataConnectorComponent`. -/
inductive Op where
  | set (buildid : Int) (name : String) (value : List Nat) (source : String)
  | deleteOld (dialect : String) (older_than_timestamp : Int)
  | get (buildid : Int) (name : String)
  | getNoValue (buildid : Int) (name : String)
  | getAllNoValues (buildid : Int)

/-- Run one component operation against the database state (results are
discarded; only the state matters for the invariant). -/
def execOp (st : DBState) : Op → DBState
  | Op.set buildid name value source => (setBuildData buildid name value source st).getD st
  | Op.deleteOld dialect t => (deleteOldBuildData dialect st t).1
  | Op.get buildid name => (getBuildData_thd st buildid name).1
  | Op.getNoValue buildid name => (getBuildDataNoValue_thd st buildid name).1
  | Op.getAllNoValues buildid => (getAllBuildDataNoValues_thd st buildid).1

/-- Run a sequence of component operations. -/
def execOps (st : DBState) (ops : List Op) : DBState := ops.foldl execOp st

/-- The `length` column of every `build_data` row equals the length of the
row's `value`. -/
def lengthInv (st : DBState) : Prop :=
  ∀ r ∈ st.build_data, r.length = r.value.length

end BuildData

namespace FakeDB

/-- A row of the in-memory fake builds component: the dict stored by
`FakeBuildsComponent.addBuild`, keyed by `id`. -/
structure FakeBuild where
  id : Int
  number : Int
  buildrequestid : Int
  builderid : Int
  workerid : Int
  masterid : Int
  state_string : String
  started_at : Int
  locks_duration_s : Int
  complete_at : Option Int
  results : Option Int
deriving DecidableEq

/-- The keys of `self.builds` (a dict from id to row). -/
def usedIds (builds : List FakeBuild) : List Int := builds.map fun r => r.id

/-- The `while id in self.builds: id += 1` scan of `_newId`, with fuel. -/
def newIdScan (used : List Int) : Int → Nat → Int
  | id, 0 => id
  | id, fuel + 1 => if id ∈ used then newIdScan used (id + 1) fuel else id

/-- `FakeBuildsComponent._newId`: start at 100 and advance past every id
already used.  Fuel `builds.length + 1` suffices: the scan stops within
as many steps as there are used ids. -/
def _newId (builds : List FakeBuild) : Int :=
  newIdScan (usedIds builds) 100 (builds.length + 1)

/-- The `number` computation of `addBuild`:
`max([0] + [r['number'] for r in self.builds.values() if r['builderid'] == builderid]) + 1`. -/
def nextNumber (builds : List FakeBuild) (builderid : Int) : Int :=
  ((builds.filter fun r => r.builderid == builderid).map fun r => r.number).foldl max 0 + 1

/-- `FakeBuildsComponent.addBuild`: allocate a fresh id and the next
number for the builder, store the new row (with `complete_at = None`,
`results = None`, `locks_duration_s = 0`, `started_at` the reactor
clock), and return `(id, number)`. -/
def addBuild (builds : List FakeBuild) (builderid buildrequestid workerid masterid : Int)
    (state_string : String) (now : Int) : List FakeBuild × (Int × Int) :=
  let id := _newId builds
  let number := nextNumber builds builderid
  (builds ++
      [{ id := id, number := number, buildrequestid := buildrequestid,
         builderid := builderid, workerid := workerid, masterid := masterid,
         state_string := state_string, started_at := now, locks_duration_s := 0,
         complete_at := none, results := none }],
   (id, number))

end FakeDB

namespace BuildData

lemma keyMatch_insertRow (b : Int) (n : String) (v : List Nat) (s : String) :
    keyMatch b n (insertRow b n v s) = true := by
  simp [keyMatch, insertRow]

lemma keyMatch_applyUpdate (b : Int) (n : String) (v : List Nat) (s : String)
    (r : BuildDataRow) (h : keyMatch b n r = true) :
    keyMatch b n (applyUpdate v s r) = true := by
  simpa [keyMatch, applyUpdate] using h

lemma applyUpdate_of_keyMatch (b : Int) (n : String) (v : List Nat) (s : String)
    (r : BuildDataRow) (h : keyMatch b n r = true) :
    applyUpdate v s r = insertRow b n v s := by
  simp [keyMatch] at h
  simp [applyUpdate, insertRow, h.1, h.2]

lemma filter_map_ite {α : Type} (p : α → Bool) (g : α → α)
    (hg : ∀ a, p a = true → p (g a) = true) :
    ∀ l : List α, (l.map fun a => if p a then g a else a).filter p = (l.filter p).map g
  | [] => rfl
  | a :: t => by
    by_cases ha : p a = true
    · simp [List.filter_cons, ha, hg a ha, filter_map_ite p g hg t]
    · simp [List.filter_cons, ha, filter_map_ite p g hg t]

lemma filter_not_map_ite {α : Type} (p : α → Bool) (g : α → α)
    (hg : ∀ a, p a = true → p (g a) = true) :
    ∀ l : List α, (l.map fun a => if p a then g a else a).filter (fun a => !(p a)) =
      l.filter fun a => !(p a)
  | [] => rfl
  | a :: t => by
    by_cases ha : p a = true
    · simp [List.filter_cons, ha, hg a ha, filter_not_map_ite p g hg t]
    · simp [List.filter_cons, ha, filter_not_map_ite p g hg t]

lemma map_ite_of_countP_zero {α : Type} (p : α → Bool) (g : α → α) (l : List α)
    (h : l.countP p = 0) : (l.map fun a => if p a then g a else a) = l := by
  rw [List.countP_eq_zero] at h
  have hcong : ∀ a ∈ l, (if p a then g a else a) = a := by
    intro a ha
    simp [h a ha]
  rw [List.map_congr_left hcong]
  simp

lemma countP_eq_one_filter {α : Type} (p : α → Bool) (l : List α) (h : l.countP p = 1) :
    ∃ r, l.filter p = [r] ∧ p r = true := by
  rw [List.countP_eq_length_filter] at h
  obtain ⟨r, hr⟩ := List.length_eq_one.mp h
  refine ⟨r, hr, ?_⟩
  have : r ∈ l.filter p := by simp [hr]
  exact (List.mem_filter.mp this).2

lemma uniqueKeysB_countP_le (l : List BuildDataRow) (h : uniqueKeysB l = true)
    (b : Int) (n : String) : l.countP (keyMatch b n) ≤ 1 := by
  induction l with
  | nil => simp
  | cons r t ih =>
    rw [uniqueKeysB, Bool.and_eq_true, List.all_eq_true] at h
    obtain ⟨hall, ht⟩ := h
    rw [List.countP_cons]
    by_cases hk : keyMatch b n r = true
    · have hz : t.countP (keyMatch b n) = 0 := by
        rw [List.countP_eq_zero]
        intro s hs hks
        have hd := hall s hs
        simp only [keyMatch, Bool.and_eq_true, beq_iff_eq] at hk hks
        simp [hk.1, hk.2, hks.1, hks.2] at hd
      simp [hz, hk]
    · simpa [hk] using ih ht

/-- When no row matches the key, one pass of the loop reaches the INSERT
and the INSERT succeeds. -/
lemma setBuildDataLoop_insert_case (hook : DBState → DBState) (st : DBState)
    (buildid : Int) (name : String) (value : List Nat) (source : String) (fuel : Nat)
    (hz : st.build_data.countP (keyMatch buildid name) = 0)
    (hins : (hook (updatedState st buildid name value source)).build_data.countP
      (keyMatch buildid name) = 0) :
    setBuildDataLoop hook buildid name value source (fuel + 1) st =
      (some ⟨(hook (updatedState st buildid name value source)).build_data ++
          [insertRow buildid name value source],
        (hook (updatedState st buildid name value source)).builds⟩, 1) := by
  have hany : (hook (updatedState st buildid name value source)).build_data.any
      (keyMatch buildid name) = false := by
    rw [List.countP_eq_zero] at hins
    simp only [List.any_eq_false]
    exact fun a ha => by simp [hins a ha]
  simp only [updatedState] at hany ⊢
  rw [setBuildDataLoop]
  simp only [execUpdate, hz, gt_iff_lt, Nat.lt_irrefl, if_false, execInsert, insertRow]
  simp [hany]

/-- When a row matches the key, the loop returns after the UPDATE. -/
lemma setBuildDataLoop_update_case (hook : DBState → DBState) (st : DBState)
    (buildid : Int) (name : String) (value : List Nat) (source : String) (fuel : Nat)
    (hpos : 0 < st.build_data.countP (keyMatch buildid name)) :
    setBuildDataLoop hook buildid name value source (fuel + 1) st =
      (some (updatedState st buildid name value source), 0) := by
  rw [setBuildDataLoop]
  simp only [execUpdate, gt_iff_lt, hpos, if_true]
  rfl

/-- C1: `setBuildData(buildid, name, value, source)` is an upsert: on any
database state respecting the `(buildid, name)` uniqueness constraint,
the call completes and afterwards the `build_data` table contains exactly
one row keyed by `(buildid, name)`, holding the given `value`,
`length = len(value)` and `source`; every other row, and the `builds`
table, are untouched. -/
theorem setBuildData_upsert (st : DBState) (buildid : Int) (name : String)
    (value : List Nat) (source : String) (h : uniqueKeys st) :
    ∃ st', setBuildData buildid name value source st = some st' ∧
      st'.build_data.filter (keyMatch buildid name) = [insertRow buildid name value source] ∧
      st'.build_data.filter (fun r => !(keyMatch buildid name r)) =
        st.build_data.filter (fun r => !(keyMatch buildid name r)) ∧
      st'.builds = st.builds := by
  have hle := uniqueKeysB_countP_le st.build_data h buildid name
  rcases Nat.eq_zero_or_pos (st.build_data.countP (keyMatch buildid name)) with hz | hpos
  · -- no existing row: the UPDATE matches nothing and the INSERT succeeds
    have hmap : (updatedState st buildid name value source).build_data = st.build_data :=
      map_ite_of_countP_zero (keyMatch buildid name) (applyUpdate value source)
        st.build_data hz
    have hnil : st.build_data.filter (keyMatch buildid name) = [] := by
      rw [List.countP_eq_zero] at hz
      rw [List.filter_eq_nil_iff]
      exact fun a ha => by simp [hz a ha]
    have hrun := setBuildDataLoop_insert_case (fun s => s) st buildid name value source 1 hz
      (by simpa [hmap] using hz)
    refine ⟨⟨st.build_data ++ [insertRow buildid name value source], st.builds⟩, ?_, ?_, ?_, ?_⟩
    · rw [setBuildData, show (2 : Nat) = 1 + 1 from rfl, hrun]
      simp only [hmap]
      rfl
    · simp [List.filter_append, hnil, keyMatch_insertRow]
    · simp [List.filter_append, keyMatch_insertRow]
    · rfl
  · -- an existing row: the UPDATE rewrites it and the loop returns
    have h1 : st.build_data.countP (keyMatch buildid name) = 1 := Nat.le_antisymm hle hpos
    obtain ⟨r, hr, hkr⟩ := countP_eq_one_filter (keyMatch buildid name) st.build_data h1
    have hrun := setBuildDataLoop_update_case (fun s => s) st buildid name value source 1 hpos
    refine ⟨updatedState st buildid name value source, ?_, ?_, ?_, rfl⟩
    · rw [setBuildData, show (2 : Nat) = 1 + 1 from rfl, hrun]
    · show (updatedState st buildid name value source).build_data.filter _ = _
      simp only [updatedState]
      rw [filter_map_ite _ _ (keyMatch_applyUpdate buildid name value source), hr]
      simp [applyUpdate_of_keyMatch buildid name value source r hkr]
    · show (updatedState st buildid name value source).build_data.filter _ = _
      simp only [updatedState]
      exact filter_not_map_ite _ _ (keyMatch_applyUpdate buildid name value source)
        st.build_data

/-- C2: the two dialect branches of `deleteOldBuildData` are NOT
equivalent.  On a state with one build completed at time 5 and one
`build_data` row for it, with `older_than_timestamp = 10`, the sqlite
branch deletes the row while the join branch used for every other dialect
keeps it: the join branch's WHERE clause selects the builds that the
sqlite branch's subquery protects. -/
theorem deleteOld_dialect_branches_differ :
    (deleteOldBuildData "sqlite" ⟨[⟨1, "n", [0], 1, "s"⟩], [⟨1, some 5⟩]⟩ 10).1.build_data
        = [] ∧
      (deleteOldBuildData "postgresql" ⟨[⟨1, "n", [0], 1, "s"⟩], [⟨1, some 5⟩]⟩ 10).1.build_data
        = [⟨1, "n", [0], 1, "s"⟩] := by
  constructor <;> rfl

/-- C3: on a non-sqlite dialect `deleteOldBuildData` is not the claimed
delete-by-predicate.  With `older_than_timestamp = 10`: a row whose build
completed at 5 (before the timestamp) is kept and the call returns 0
removed rows, while a row whose build is incomplete (`complete_at` NULL)
is deleted. -/
theorem deleteOldBuildData_join_branch_inverted :
    (deleteOldBuildData "mysql" ⟨[⟨1, "n", [0], 1, "s"⟩], [⟨1, some 5⟩]⟩ 10).1.build_data
        = [⟨1, "n", [0], 1, "s"⟩] ∧
      (deleteOldBuildData "mysql" ⟨[⟨1, "n", [0], 1, "s"⟩], [⟨1, some 5⟩]⟩ 10).2 = 0 ∧
      (deleteOldBuildData "mysql" ⟨[⟨2, "m", [0], 1, "s"⟩], [⟨2, none⟩]⟩ 10).1.build_data
        = [] := by
  refine ⟨rfl, rfl, rfl⟩

lemma setBuildDataLoop_snd_eq_zero (hook : DBState → DBState) (buildid : Int)
    (name : String) (value : List Nat) (source : String) (fuel : Nat) (st : DBState)
    (hpos : 0 < st.build_data.countP (keyMatch buildid name)) :
    (setBuildDataLoop hook buildid name value source fuel st).2 = 0 := by
  cases fuel with
  | zero => rfl
  | succ f => rw [setBuildDataLoop_update_case hook st buildid name value source f hpos]

/-- C4: on a uniqueness conflict the insert is retried at most once: in
every execution of the `setBuildData` loop — whatever the race hook does,
whatever the fuel and the starting state — the INSERT statement is
attempted at most twice. -/
theorem setBuildData_insert_attempted_at_most_twice (hook : DBState → DBState)
    (buildid : Int) (name : String) (value : List Nat) (source : String)
    (fuel : Nat) (st : DBState) :
    (setBuildDataLoop hook buildid name value source fuel st).2 ≤ 2 := by
  cases fuel with
  | zero => exact Nat.zero_le 2
  | succ f =>
    rcases Nat.eq_zero_or_pos (st.build_data.countP (keyMatch buildid name)) with hz | hpos
    · rw [setBuildDataLoop]
      simp only [execUpdate, hz, gt_iff_lt, Nat.lt_irrefl, if_false, execInsert, insertRow]
      by_cases hany : (hook (updatedState st buildid name value source)).build_data.any
          (keyMatch buildid name) = true
      · have hpos2 : 0 < (hook (updatedState st buildid name value source)).build_data.countP
            (keyMatch buildid name) := by
          obtain ⟨a, ha, hpa⟩ := List.any_eq_true.mp hany
          exact List.countP_pos_iff.mpr ⟨a, ha, hpa⟩
        simp only [updatedState] at hany hpos2
        simp only [hany, if_true]
        rw [setBuildDataLoop_snd_eq_zero hook buildid name value source f _ hpos2]
        exact Nat.le_of_lt_succ (Nat.lt_succ_of_lt (Nat.lt_succ_self 1))
      · rw [Bool.not_eq_true] at hany
        simp only [updatedState] at hany
        simp only [hany, if_false]
        exact Nat.le_of_lt_succ (Nat.lt_succ_of_lt (Nat.lt_succ_self 1))
    · rw [setBuildDataLoop_update_case hook st buildid name value source f hpos]
      exact Nat.zero_le 2

/-- Witness for C1 at a concrete state: upserting into a one-row table. -/
theorem setBuildData_upsert_witness :
    uniqueKeys ⟨[⟨1, "n", [0], 1, "s"⟩], []⟩ ∧
      ∃ st', setBuildData 1 "n" [1, 2] "api" ⟨[⟨1, "n", [0], 1, "s"⟩], []⟩ = some st' ∧
        st'.build_data.filter (keyMatch 1 "n") = [insertRow 1 "n" [1, 2] "api"] ∧
        st'.build_data.filter (fun r => !(keyMatch 1 "n" r)) =
          (⟨[⟨1, "n", [0], 1, "s"⟩], []⟩ : DBState).build_data.filter
            (fun r => !(keyMatch 1 "n" r)) ∧
        st'.builds = (⟨[⟨1, "n", [0], 1, "s"⟩], []⟩ : DBState).builds :=
  ⟨by decide, setBuildData_upsert ⟨[⟨1, "n", [0], 1, "s"⟩], []⟩ 1 "n" [1, 2] "api" (by decide)⟩

lemma find?_of_countP_le_one {α : Type} (p : α → Bool) :
    ∀ l : List α, l.countP p ≤ 1 → ∀ r, r ∈ l → p r = true → l.find? p = some r
  | [], _, r, hr, _ => absurd hr (List.not_mem_nil r)
  | a :: t, hle, r, hr, hpr => by
    rw [List.countP_cons] at hle
    by_cases hpa : p a = true
    · rw [List.find?_cons_of_pos _ hpa]
      rcases List.mem_cons.mp hr with rfl | hrt
      · rfl
      · exfalso
        have hp : 0 < t.countP p := List.countP_pos_iff.mpr ⟨r, hrt, hpr⟩
        rw [if_pos hpa] at hle
        omega
    · rw [List.find?_cons_of_neg _ hpa]
      rcases List.mem_cons.mp hr with rfl | hrt
      · exact absurd hpr hpa
      · exact find?_of_countP_le_one p t (by simpa [hpa] using hle) r hrt hpr

/-- C5: `getBuildData(buildid, name)` is a select-by-key: on any state
respecting the key uniqueness constraint it returns `none` when no
`build_data` row has the key, and otherwise the `BuildDataModel` carrying
the matching row's `buildid`, `name`, `length`, `source` and `value`. -/
theorem getBuildData_select_by_key (st : DBState) (buildid : Int) (name : String)
    (h : uniqueKeys st) :
    ((∀ r ∈ st.build_data, keyMatch buildid name r = false) →
        getBuildData st buildid name = none) ∧
      ∀ r ∈ st.build_data, keyMatch buildid name r = true →
        getBuildData st buildid name =
          some { buildid := r.buildid, name := r.name, length := r.length,
                 source := r.source, value := some r.value } := by
  constructor
  · intro hnone
    rw [getBuildData, List.find?_eq_none.mpr fun x hx => by simp [hnone x hx]]
    rfl
  · intro r hr hkr
    rw [getBuildData, find?_of_countP_le_one _ st.build_data
      (uniqueKeysB_countP_le st.build_data h buildid name) r hr hkr]
    rfl

/-- Witness for C5: a hit and a miss on a concrete one-row table. -/
theorem getBuildData_select_by_key_witness :
    uniqueKeys ⟨[⟨1, "a", [7], 1, "s"⟩], []⟩ ∧
      getBuildData ⟨[⟨1, "a", [7], 1, "s"⟩], []⟩ 1 "a" =
        some { buildid := 1, name := "a", length := 1, source := "s", value := some [7] } :=
  ⟨by decide,
    (getBuildData_select_by_key ⟨[⟨1, "a", [7], 1, "s"⟩], []⟩ 1 "a" (by decide)).2
      ⟨1, "a", [7], 1, "s"⟩ (List.mem_singleton.mpr rfl) (by decide)⟩

/-- C6: the accessors are stateless reads: each `thd` hands back to the
pool exactly the database state it was given (the `build_data` and
`builds` tables are unchanged), and running the same accessor again on
the state left by the first call yields the same result. -/
theorem accessors_are_stateless (st : DBState) (buildid : Int) (name : String) :
    (getBuildData_thd st buildid name).1 = st ∧
      (getBuildDataNoValue_thd st buildid name).1 = st ∧
      (getAllBuildDataNoValues_thd st buildid).1 = st ∧
      (getBuildData_thd (getBuildData_thd st buildid name).1 buildid name).2 =
        (getBuildData_thd st buildid name).2 ∧
      (getBuildDataNoValue_thd (getBuildDataNoValue_thd st buildid name).1 buildid name).2 =
        (getBuildDataNoValue_thd st buildid name).2 ∧
      (getAllBuildDataNoValues_thd (getAllBuildDataNoValues_thd st buildid).1 buildid).2 =
        (getAllBuildDataNoValues_thd st buildid).2 :=
  ⟨rfl, rfl, rfl, rfl, rfl, rfl⟩

/-- C8: `getBuildDataNoValue` returns exactly the result of `getBuildData`
with the `value` field replaced by `none` (and `none` when `getBuildData`
returns `none`); `getAllBuildDataNoValues` returns one value-less model
per `build_data` row whose `buildid` matches, covering all of them. -/
theorem noValue_accessors_agree (st : DBState) (buildid : Int) (name : String) :
    getBuildDataNoValue st buildid name =
      (getBuildData st buildid name).map (fun m => { m with value := none }) ∧
      (∀ m, m ∈ getAllBuildDataNoValues st buildid ↔
        ∃ r, r ∈ st.build_data ∧ r.buildid = buildid ∧ m = model_from_row r none) ∧
      (getAllBuildDataNoValues st buildid).length =
        (st.build_data.filter fun r => r.buildid == buildid).length := by
  refine ⟨?_, ?_, ?_⟩
  · rw [getBuildDataNoValue, getBuildData]
    cases st.build_data.find? (keyMatch buildid name) <;> rfl
  · intro m
    simp only [getAllBuildDataNoValues, List.mem_map, List.mem_filter, beq_iff_eq]
    constructor
    · rintro ⟨r, ⟨hr, hb⟩, hm⟩
      exact ⟨r, hr, hb, hm.symm⟩
    · rintro ⟨r, hr, hb, hm⟩
      exact ⟨r, ⟨hr, hb⟩, hm.symm⟩
  · rw [getAllBuildDataNoValues, List.length_map]

lemma setBuildData_of_countP_zero (st : DBState) (buildid : Int) (name : String)
    (value : List Nat) (source : String)
    (hz : st.build_data.countP (keyMatch buildid name) = 0) :
    setBuildData buildid name value source st =
      some ⟨st.build_data ++ [insertRow buildid name value source], st.builds⟩ := by
  have hmap : (updatedState st buildid name value source).build_data = st.build_data :=
    map_ite_of_countP_zero _ _ _ hz
  rw [setBuildData, show (2 : Nat) = 1 + 1 from rfl,
    setBuildDataLoop_insert_case (fun s => s) st buildid name value source 1 hz
      (by simpa [hmap] using hz)]
  simp only [hmap]
  rfl

lemma setBuildData_of_countP_pos (st : DBState) (buildid : Int) (name : String)
    (value : List Nat) (source : String)
    (hpos : 0 < st.build_data.countP (keyMatch buildid name)) :
    setBuildData buildid name value source st =
      some (updatedState st buildid name value source) := by
  rw [setBuildData, show (2 : Nat) = 1 + 1 from rfl,
    setBuildDataLoop_update_case (fun s => s) st buildid name value source 1 hpos]

lemma setBuildData_isSome (buildid : Int) (name : String) (value : List Nat)
    (source : String) (st : DBState) :
    (setBuildData buildid name value source st).isSome = true := by
  rcases Nat.eq_zero_or_pos (st.build_data.countP (keyMatch buildid name)) with hz | hpos
  · rw [setBuildData_of_countP_zero st buildid name value source hz]
    rfl
  · rw [setBuildData_of_countP_pos st buildid name value source hpos]
    rfl

lemma insertRow_buildid (buildid : Int) (name : String) (value : List Nat)
    (source : String) : (insertRow buildid name value source).buildid = buildid := rfl

lemma insertRow_name (buildid : Int) (name : String) (value : List Nat)
    (source : String) : (insertRow buildid name value source).name = name := rfl

lemma filter_of_countP_zero (buildid : Int) (name : String) (l : List BuildDataRow)
    (hz : l.countP (keyMatch buildid name) = 0) :
    l.filter (keyMatch buildid name) = [] := by
  rw [List.countP_eq_zero] at hz
  rw [List.filter_eq_nil_iff]
  exact fun a ha => by simp [hz a ha]

/-- C7: `setBuildData` tolerates a race between two concurrent writers.
The race hook runs a full competing `setBuildData` for the same key (as
`_insert_race_hook` lets tests do); the competing call completes, the
interrupted call completes without surfacing the uniqueness violation of
its INSERT, and afterwards the table holds exactly one row for the key,
whose `value`, `length` and `source` come from one of the two calls. -/
theorem setBuildData_race_tolerant (st : DBState) (buildid : Int) (name : String)
    (v1 : List Nat) (s1 : String) (v2 : List Nat) (s2 : String) (h : uniqueKeys st) :
    (∀ s, (setBuildData buildid name v2 s2 s).isSome = true) ∧
      ∃ st',
        (setBuildDataLoop (fun s => (setBuildData buildid name v2 s2 s).getD s)
            buildid name v1 s1 2 st).1 = some st' ∧
          (st'.build_data.filter (keyMatch buildid name) = [insertRow buildid name v1 s1] ∨
            st'.build_data.filter (keyMatch buildid name) = [insertRow buildid name v2 s2]) := by
  refine ⟨fun s => setBuildData_isSome buildid name v2 s2 s, ?_⟩
  have hle := uniqueKeysB_countP_le st.build_data h buildid name
  rcases Nat.eq_zero_or_pos (st.build_data.countP (keyMatch buildid name)) with hz | hpos
  · -- key absent: the competing writer inserts first, the INSERT conflicts,
    -- and the retry's UPDATE overwrites the competing row
    have hmap1 : (updatedState st buildid name v1 s1).build_data = st.build_data :=
      map_ite_of_countP_zero _ _ _ hz
    have hz1 : (updatedState st buildid name v1 s1).build_data.countP
        (keyMatch buildid name) = 0 := by rw [hmap1]; exact hz
    have hBeq : setBuildData buildid name v2 s2 (updatedState st buildid name v1 s1) =
        some ⟨st.build_data ++ [insertRow buildid name v2 s2], st.builds⟩ := by
      rw [setBuildData_of_countP_zero _ buildid name v2 s2 hz1, hmap1]
      rfl
    have hany : (st.build_data ++ [insertRow buildid name v2 s2]).any
        (keyMatch buildid name) = true := by
      simp [List.any_append, keyMatch_insertRow]
    have hposB : 0 < (st.build_data ++ [insertRow buildid name v2 s2]).countP
        (keyMatch buildid name) := by
      rw [List.countP_append, hz]
      simp [List.countP_cons, keyMatch_insertRow]
    refine ⟨updatedState ⟨st.build_data ++ [insertRow buildid name v2 s2], st.builds⟩
      buildid name v1 s1, ?_, Or.inl ?_⟩
    · rw [show (2 : Nat) = 1 + 1 from rfl, setBuildDataLoop]
      simp only [execUpdate, hz, gt_iff_lt, Nat.lt_irrefl, if_false]
      simp only [updatedState] at hBeq
      rw [hBeq]
      simp only [Option.getD_some, execInsert, insertRow_buildid, insertRow_name]
      rw [if_pos hany]
      rw [setBuildDataLoop_update_case (fun s => (setBuildData buildid name v2 s2 s).getD s)
        ⟨st.build_data ++ [insertRow buildid name v2 s2], st.builds⟩ buildid name v1 s1 0 hposB]
    · rw [show (updatedState ⟨st.build_data ++ [insertRow buildid name v2 s2], st.builds⟩
          buildid name v1 s1).build_data =
        (st.build_data ++ [insertRow buildid name v2 s2]).map fun a =>
          if keyMatch buildid name a then applyUpdate v1 s1 a else a from rfl]
      rw [filter_map_ite _ _ (keyMatch_applyUpdate buildid name v1 s1), List.filter_append,
        filter_of_countP_zero buildid name st.build_data hz]
      simp [keyMatch_insertRow,
        applyUpdate_of_keyMatch buildid name v1 s1 _ (keyMatch_insertRow buildid name v2 s2)]
  · -- key present: the first UPDATE matches and the hook never runs
    have h1 : st.build_data.countP (keyMatch buildid name) = 1 := Nat.le_antisymm hle hpos
    obtain ⟨r, hr, hkr⟩ := countP_eq_one_filter (keyMatch buildid name) st.build_data h1
    refine ⟨updatedState st buildid name v1 s1, ?_, Or.inl ?_⟩
    · rw [show (2 : Nat) = 1 + 1 from rfl,
        setBuildDataLoop_update_case _ st buildid name v1 s1 1 hpos]
    · rw [show (updatedState st buildid name v1 s1).build_data =
          st.build_data.map fun a =>
            if keyMatch buildid name a then applyUpdate v1 s1 a else a from rfl]
      rw [filter_map_ite _ _ (keyMatch_applyUpdate buildid name v1 s1), hr]
      simp [applyUpdate_of_keyMatch buildid name v1 s1 r hkr]

/-- Witness for C7: the race simulated on the empty table. -/
theorem setBuildData_race_tolerant_witness :
    uniqueKeys ⟨[], []⟩ ∧
      ((∀ s, (setBuildData 1 "k" [9] "B" s).isSome = true) ∧
        ∃ st',
          (setBuildDataLoop (fun s => (setBuildData 1 "k" [9] "B" s).getD s)
              1 "k" [5] "A" 2 ⟨[], []⟩).1 = some st' ∧
            (st'.build_data.filter (keyMatch 1 "k") = [insertRow 1 "k" [5] "A"] ∨
              st'.build_data.filter (keyMatch 1 "k") = [insertRow 1 "k" [9] "B"])) :=
  ⟨by decide, setBuildData_race_tolerant ⟨[], []⟩ 1 "k" [5] "A" [9] "B" (by decide)⟩

lemma lengthInv_setBuildData (st : DBState) (buildid : Int) (name : String)
    (value : List Nat) (source : String) (h : lengthInv st) :
    lengthInv ((setBuildData buildid name value source st).getD st) := by
  rcases Nat.eq_zero_or_pos (st.build_data.countP (keyMatch buildid name)) with hz | hpos
  · rw [setBuildData_of_countP_zero st buildid name value source hz, Option.getD_some]
    intro r hr
    rcases List.mem_append.mp hr with h1 | h2
    · exact h r h1
    · rw [List.mem_singleton.mp h2]
      rfl
  · rw [setBuildData_of_countP_pos st buildid name value source hpos, Option.getD_some]
    intro r hr
    obtain ⟨a, ha, hra⟩ := List.mem_map.mp hr
    by_cases hk : keyMatch buildid name a = true
    · rw [← hra, if_pos hk]
      rfl
    · rw [← hra, if_neg hk]
      exact h a ha

lemma lengthInv_deleteOld (dialect : String) (st : DBState) (t : Int)
    (h : lengthInv st) : lengthInv (deleteOldBuildData dialect st t).1 := by
  intro r hr
  apply h
  rw [deleteOldBuildData] at hr
  by_cases hd : (dialect == "sqlite") = true
  · rw [if_pos hd] at hr
    exact (List.mem_filter.mp hr).1
  · rw [if_neg hd] at hr
    exact (List.mem_filter.mp hr).1

lemma lengthInv_execOp (st : DBState) (op : Op) (h : lengthInv st) :
    lengthInv (execOp st op) := by
  cases op with
  | set buildid name value source => exact lengthInv_setBuildData st buildid name value source h
  | deleteOld dialect t => exact lengthInv_deleteOld dialect st t h
  | get buildid name => exact h
  | getNoValue buildid name => exact h
  | getAllNoValues buildid => exact h

/-- C9: every row written by `setBuildData` satisfies
`length = len(value)`, and every operation of the component preserves
this: in any state satisfying the invariant — in particular any state
reachable from the empty database using only this component's
operations — every `build_data` row's `length` column equals the length
of its `value`, and this remains so after any sequence of operations. -/
theorem length_column_invariant (ops : List Op) (st : DBState) (h : lengthInv st) :
    lengthInv (execOps st ops) := by
  induction ops generalizing st with
  | nil => exact h
  | cons op rest ih =>
    rw [execOps, List.foldl_cons]
    exact ih (execOp st op) (lengthInv_execOp st op h)

/-- Witness for C9: an upsert followed by a delete, from the empty
database. -/
theorem length_column_invariant_witness :
    lengthInv ⟨[], []⟩ ∧
      lengthInv (execOps ⟨[], []⟩
        [Op.set 1 "a" [1, 2] "s", Op.get 1 "a", Op.deleteOld "sqlite" 5]) :=
  ⟨by simp [lengthInv], length_column_invariant
    [Op.set 1 "a" [1, 2] "s", Op.get 1 "a", Op.deleteOld "sqlite" 5] ⟨[], []⟩
    (by simp [lengthInv])⟩

end BuildData

namespace FakeDB

lemma countP_strict_of_mem (used : List Int) (start : Int) (hmem : start ∈ used) :
    used.countP (fun x => decide (start + 1 ≤ x)) + 1 ≤
      used.countP fun x => decide (start ≤ x) := by
  induction used with
  | nil => cases hmem
  | cons a t ih =>
    have hmono : t.countP (fun x => decide (start + 1 ≤ x)) ≤
        t.countP fun x => decide (start ≤ x) :=
      List.countP_mono_left fun x _ hx => by
        simp only [decide_eq_true_eq] at hx ⊢
        omega
    rw [List.countP_cons, List.countP_cons]
    rcases List.mem_cons.mp hmem with rfl | ht
    · have h1 : ¬(start + 1 ≤ start) := by omega
      simp only [h1, decide_False, Bool.false_eq_true, if_false, le_refl, decide_True,
        if_true]
      omega
    · have hih := ih ht
      by_cases hpa : start + 1 ≤ a
      · have hqa : start ≤ a := by omega
        simp only [hpa, hqa, decide_True, if_true]
        omega
      · by_cases hqa : start ≤ a
        · simp only [hpa, hqa, decide_False, decide_True, Bool.false_eq_true, if_false,
            if_true]
          omega
        · simp only [hpa, hqa, decide_False, Bool.false_eq_true, if_false]
          omega

lemma newIdScan_spec (used : List Int) :
    ∀ fuel : Nat, ∀ start : Int, used.countP (fun x => decide (start ≤ x)) < fuel →
      newIdScan used start fuel ∉ used ∧ start ≤ newIdScan used start fuel ∧
        ∀ j : Int, start ≤ j → j < newIdScan used start fuel → j ∈ used := by
  intro fuel
  induction fuel with
  | zero => exact fun start h => absurd h (Nat.not_lt_zero _)
  | succ f ih =>
    intro start h
    rw [newIdScan]
    by_cases hmem : start ∈ used
    · rw [if_pos hmem]
      have hlt : used.countP (fun x => decide (start + 1 ≤ x)) < f := by
        have := countP_strict_of_mem used start hmem
        omega
      obtain ⟨h1, h2, h3⟩ := ih (start + 1) hlt
      refine ⟨h1, by omega, ?_⟩
      intro j hj1 hj2
      rcases eq_or_lt_of_le hj1 with rfl | hlt2
      · exact hmem
      · exact h3 j (by omega) hj2
    · rw [if_neg hmem]
      exact ⟨hmem, le_refl start, fun j hj1 hj2 => absurd hj1 (by omega)⟩

lemma newId_spec (builds : List FakeBuild) :
    _newId builds ∉ usedIds builds ∧ 100 ≤ _newId builds ∧
      ∀ j : Int, 100 ≤ j → j < _newId builds → j ∈ usedIds builds := by
  apply newIdScan_spec
  calc (usedIds builds).countP (fun x => decide ((100 : Int) ≤ x)) ≤ (usedIds builds).length :=
        List.countP_le_length _
    _ = builds.length := List.length_map _ _
    _ < builds.length + 1 := Nat.lt_succ_self _

lemma foldl_max_le (l : List Int) : ∀ a : Int, a ≤ l.foldl max a ∧ ∀ x ∈ l, x ≤ l.foldl max a := by
  induction l with
  | nil => exact fun a => ⟨le_refl a, fun x hx => absurd hx (List.not_mem_nil x)⟩
  | cons b t ih =>
    intro a
    rw [List.foldl_cons]
    obtain ⟨h1, h2⟩ := ih (max a b)
    refine ⟨le_trans (le_max_left a b) h1, ?_⟩
    intro x hx
    rcases List.mem_cons.mp hx with rfl | hxt
    · exact le_trans (le_max_right a x) h1
    · exact h2 x hxt

lemma foldl_max_mem (l : List Int) : ∀ a : Int, l.foldl max a = a ∨ l.foldl max a ∈ l := by
  induction l with
  | nil => exact fun a => Or.inl rfl
  | cons b t ih =>
    intro a
    rw [List.foldl_cons]
    rcases ih (max a b) with h | h
    · rcases max_choice a b with h2 | h2
      · exact Or.inl (h.trans h2)
      · rw [h, h2]
        exact Or.inr (List.mem_cons_self b t)
    · exact Or.inr (List.mem_cons_of_mem b h)

/-- C10: `addBuild(builderid, buildrequestid, workerid, masterid,
state_string)` on the fake builds component assigns the smallest id at
least 100 not already in use, a number one greater than every existing
number of the same builder and equal to one plus one of them (1 when the
builder has no build, provided existing numbers are nonnegative), stores
the new row with `complete_at = None` and `results = None`, and returns
`(id, number)`. -/
theorem addBuild_spec (builds : List FakeBuild)
    (builderid buildrequestid workerid masterid : Int) (state_string : String) (now : Int)
    (hnn : ∀ r ∈ builds, r.builderid = builderid → 0 ≤ r.number) :
    (addBuild builds builderid buildrequestid workerid masterid state_string now).2.1 ∉
        usedIds builds ∧
      100 ≤ (addBuild builds builderid buildrequestid workerid masterid state_string now).2.1 ∧
      (∀ j : Int, 100 ≤ j →
        j < (addBuild builds builderid buildrequestid workerid masterid state_string now).2.1 →
        j ∈ usedIds builds) ∧
      ((∀ r ∈ builds, r.builderid ≠ builderid) →
        (addBuild builds builderid buildrequestid workerid masterid state_string now).2.2 = 1) ∧
      (∀ r ∈ builds, r.builderid = builderid →
        r.number <
          (addBuild builds builderid buildrequestid workerid masterid state_string now).2.2) ∧
      ((∃ r ∈ builds, r.builderid = builderid) →
        ∃ r ∈ builds, r.builderid = builderid ∧
          (addBuild builds builderid buildrequestid workerid masterid state_string now).2.2 =
            r.number + 1) ∧
      (addBuild builds builderid buildrequestid workerid masterid state_string now).1 =
        builds ++
          [{ id := (addBuild builds builderid buildrequestid workerid masterid
                state_string now).2.1,
             number := (addBuild builds builderid buildrequestid workerid masterid
                state_string now).2.2,
             buildrequestid := buildrequestid, builderid := builderid,
             workerid := workerid, masterid := masterid, state_string := state_string,
             started_at := now, locks_duration_s := 0, complete_at := none,
             results := none }] := by
  obtain ⟨hid1, hid2, hid3⟩ := newId_spec builds
  have hnums := foldl_max_le ((builds.filter fun r => r.builderid == builderid).map
    fun r => r.number) 0
  refine ⟨hid1, hid2, hid3, ?_, ?_, ?_, rfl⟩
  · intro hnone
    have hfil : builds.filter (fun r => r.builderid == builderid) = [] := by
      rw [List.filter_eq_nil_iff]
      intro r hr
      simp [hnone r hr]
    show nextNumber builds builderid = 1
    rw [nextNumber, hfil]
    rfl
  · intro r hr hb
    have hmem : r.number ∈ (builds.filter fun x => x.builderid == builderid).map
        fun x => x.number :=
      List.mem_map.mpr ⟨r, List.mem_filter.mpr ⟨hr, by simp [hb]⟩, rfl⟩
    have := hnums.2 r.number hmem
    show r.number < nextNumber builds builderid
    rw [nextNumber]
    omega
  · rintro ⟨r0, hr0, hb0⟩
    have hmem0 : r0.number ∈ (builds.filter fun x => x.builderid == builderid).map
        fun x => x.number :=
      List.mem_map.mpr ⟨r0, List.mem_filter.mpr ⟨hr0, by simp [hb0]⟩, rfl⟩
    rcases foldl_max_mem ((builds.filter fun r => r.builderid == builderid).map
      fun r => r.number) 0 with hm | hm
    · refine ⟨r0, hr0, hb0, ?_⟩
      have hle0 := hnums.2 r0.number hmem0
      have hge0 := hnn r0 hr0 hb0
      show nextNumber builds builderid = r0.number + 1
      rw [nextNumber]
      omega
    · obtain ⟨r, hrf, hrn⟩ := List.mem_map.mp hm
      obtain ⟨hrmem, hrb⟩ := List.mem_filter.mp hrf
      refine ⟨r, hrmem, by simpa using hrb, ?_⟩
      show nextNumber builds builderid = r.number + 1
      rw [nextNumber, hrn]

/-- Witness for C10: adding a build next to an existing build numbered 3
of the same builder yields id 101 and number 4. -/
theorem addBuild_spec_witness :
    (∀ r ∈ [(⟨100, 3, 0, 1, 0, 0, "t", 0, 0, none, none⟩ : FakeBuild)],
        r.builderid = 1 → 0 ≤ r.number) ∧
      (addBuild [⟨100, 3, 0, 1, 0, 0, "t", 0, 0, none, none⟩] 1 5 6 7 "new" 42).2.1 ∉
          usedIds [⟨100, 3, 0, 1, 0, 0, "t", 0, 0, none, none⟩] ∧
        100 ≤ (addBuild [⟨100, 3, 0, 1, 0, 0, "t", 0, 0, none, none⟩] 1 5 6 7 "new" 42).2.1 ∧
        (∀ j : Int, 100 ≤ j →
          j < (addBuild [⟨100, 3, 0, 1, 0, 0, "t", 0, 0, none, none⟩] 1 5 6 7 "new" 42).2.1 →
          j ∈ usedIds [⟨100, 3, 0, 1, 0, 0, "t", 0, 0, none, none⟩]) ∧
        ((∀ r ∈ [(⟨100, 3, 0, 1, 0, 0, "t", 0, 0, none, none⟩ : FakeBuild)],
            r.builderid ≠ 1) →
          (addBuild [⟨100, 3, 0, 1, 0, 0, "t", 0, 0, none, none⟩] 1 5 6 7 "new" 42).2.2 = 1) ∧
        (∀ r ∈ [(⟨100, 3, 0, 1, 0, 0, "t", 0, 0, none, none⟩ : FakeBuild)],
          r.builderid = 1 →
          r.number <
            (addBuild [⟨100, 3, 0, 1, 0, 0, "t", 0, 0, none, none⟩] 1 5 6 7 "new" 42).2.2) ∧
        ((∃ r ∈ [(⟨100, 3, 0, 1, 0, 0, "t", 0, 0, none, none⟩ : FakeBuild)],
            r.builderid = 1) →
          ∃ r ∈ [(⟨100, 3, 0, 1, 0, 0, "t", 0, 0, none, none⟩ : FakeBuild)],
            r.builderid = 1 ∧
            (addBuild [⟨100, 3, 0, 1, 0, 0, "t", 0, 0, none, none⟩] 1 5 6 7 "new" 42).2.2 =
              r.number + 1) ∧
        (addBuild [⟨100, 3, 0, 1, 0, 0, "t", 0, 0, none, none⟩] 1 5 6 7 "new" 42).1 =
          [⟨100, 3, 0, 1, 0, 0, "t", 0, 0, none, none⟩] ++
            [{ id := (addBuild [⟨100, 3, 0, 1, 0, 0, "t", 0, 0, none, none⟩]
                  1 5 6 7 "new" 42).2.1,
               number := (addBuild [⟨100, 3, 0, 1, 0, 0, "t", 0, 0, none, none⟩]
                  1 5 6 7 "new" 42).2.2,
               buildrequestid := 5, builderid := 1, workerid := 6, masterid := 7,
               state_string := "new", started_at := 42, locks_duration_s := 0,
               complete_at := none, results := none }] :=
  ⟨by decide, addBuild_spec [⟨100, 3, 0, 1, 0, 0, "t", 0, 0, none, none⟩] 1 5 6 7 "new" 42
    (by decide)⟩

end FakeDB

